import Mathlib

/-!
Shallow embedding of the core of the `bitbucket-mcp` server: the Access
Gateway (safety checks in `src/safety.ts`) and the Transport Client
(`src/bitbucket/client.ts`).  TypeScript `string | undefined` values are
modelled as `Option String`; JavaScript string truthiness (`if (s)`) is
modelled as the test `s ≠ ""` on the wrapped value (with `none` also
falsy).  Thrown exceptions are modelled with `Except`.
-/

/-- Embeds `Config` from `src/config.ts`.  `allowedWorkspaces` and
`allowedRepos` are the already-parsed, lower-cased lists produced by
`loadConfig`. -/
structure Config where
  email : String
  apiToken : String
  defaultWorkspace : Option String
  allowedWorkspaces : Option (List String)
  allowedRepos : Option (List String)
  readonly : Bool
  baseUrl : String
deriving DecidableEq, Repr

/-- Embeds the `SafetyError` class: a policy failure carrying a message. -/
structure SafetyError where
  message : String
deriving DecidableEq, Repr

/-- Embeds `assertNotReadonly` from `src/safety.ts`. -/
def assertNotReadonly (config : Config) : Except SafetyError Unit :=
  if config.readonly then
    .error ⟨"This operation is not allowed in readonly mode. Set BITBUCKET_READONLY=false to enable write operations."⟩
  else
    .ok ()

/-- Models JavaScript `String.prototype.toLowerCase()` (ASCII case
mapping, which is all the identifiers involved use): lower-case every
character. -/
def strToLower (s : String) : String :=
  String.mk (s.data.map Char.toLower)

/-- Models JavaScript `String.prototype.startsWith(pre)`. -/
def strStartsWith (s pre : String) : Bool :=
  pre.data.isPrefixOf s.data

/-- Embeds `assertWorkspaceAllowed` from `src/safety.ts`: no-op when the
allowed-workspace list is absent, otherwise requires the lower-cased
workspace to be a member. -/
def assertWorkspaceAllowed (config : Config) (workspace : String) :
    Except SafetyError Unit :=
  match config.allowedWorkspaces with
  | none => .ok ()
  | some allowed =>
    let normalized := strToLower workspace
    if allowed.contains normalized then
      .ok ()
    else
      .error ⟨"Workspace \"" ++ workspace ++ "\" is not in the allowed list. Allowed: " ++ String.intercalate ", " allowed⟩

/-- Embeds `assertRepoAllowed` from `src/safety.ts`: the workspace check
runs first (its exception propagates); then, when the allowed-repository
list is present, the lower-cased `workspace/slug` composite or the
lower-cased bare slug must be a member. -/
def assertRepoAllowed (config : Config) (workspace repoSlug : String) :
    Except SafetyError Unit :=
  match assertWorkspaceAllowed config workspace with
  | .error e => .error e
  | .ok _ =>
    match config.allowedRepos with
    | none => .ok ()
    | some allowed =>
      let fullName := strToLower (workspace ++ "/" ++ repoSlug)
      let slugOnly := strToLower repoSlug
      if allowed.contains fullName || allowed.contains slugOnly then
        .ok ()
      else
        .error ⟨"Repository \"" ++ workspace ++ "/" ++ repoSlug ++ "\" is not in the allowed list. Allowed: " ++ String.intercalate ", " allowed⟩

/-- Embeds `assertConfirmed` from `src/safety.ts`: `if (!confirm) throw`,
so only the exact value `true` passes (`false` and `undefined` fail). -/
def assertConfirmed (confirm : Option Bool) (action : String) :
    Except SafetyError Unit :=
  if confirm = some true then
    .ok ()
  else
    .error ⟨"Destructive action \"" ++ action ++ "\" requires explicit confirmation. Set confirm=true to proceed."⟩

/-- Embeds `resolveWorkspace` from `src/safety.ts`.  The source uses
JavaScript truthiness twice: `if (workspace) return workspace;` and
`if (config.defaultWorkspace) return config.defaultWorkspace;`, so an
empty string behaves like an absent value in both positions. -/
def resolveWorkspace (config : Config) (workspace : Option String) :
    Except SafetyError String :=
  if workspace.getD "" ≠ "" then
    .ok (workspace.getD "")
  else if config.defaultWorkspace.getD "" ≠ "" then
    .ok (config.defaultWorkspace.getD "")
  else
    .error ⟨"No workspace specified and BITBUCKET_DEFAULT_WORKSPACE is not set. Provide a workspace parameter."⟩

/-- Embeds the `BitbucketApiError` class from `src/bitbucket/client.ts`:
a transport failure with a numeric status code and a message. -/
structure BitbucketApiError where
  statusCode : Nat
  message : String
deriving DecidableEq, Repr

/-- A value of a query parameter record
(`Record<string, string | number | boolean | undefined>`); `undefined`
entries are modelled by pairing keys with `Option ParamValue`. -/
inductive ParamValue where
  | str (s : String)
  | num (n : Int)
  | boolean (b : Bool)
deriving DecidableEq, Repr

/-- A query-parameter record, in insertion order. -/
abbrev QueryParams := List (String × Option ParamValue)

/-- Embeds the constructor line
`this.baseUrl = config.baseUrl.replace(/\/+$/, "")`: strips every
trailing `/` character. -/
def stripTrailingSlashes (s : String) : String :=
  String.mk ((s.data.reverse.dropWhile (fun c => c = '/')).reverse)

/-- The normalized base URL the client stores at construction. -/
def mkClientBaseUrl (config : Config) : String :=
  stripTrailingSlashes config.baseUrl

/-- Embeds the URL-building step of `request` (client.ts lines 35-40):
a path starting with `http://` or `https://` is used verbatim; any other
path is appended to the normalized base URL, with a `/` inserted when the
path does not itself start with one.  (The optional query-string append
that follows in the source is a separate step, not part of this join.) -/
def buildUrl (baseUrl path : String) : String :=
  if strStartsWith path "http://" || strStartsWith path "https://" then
    path
  else
    baseUrl ++ (if strStartsWith path "/" then "" else "/") ++ path

/-- Models JavaScript `text.substring(0, n)` (here only ever used with a
start index of 0): the first `n` characters of `s`. -/
def substring0 (s : String) (n : Nat) : String :=
  String.mk (s.data.take n)

/-- Embeds the body-truncation step of `request` (client.ts lines 79-80):
bodies longer than 2000 characters are cut to 2000 characters and get a
`"..."` marker appended. -/
def truncateBody (text : String) : String :=
  if text.length > 2000 then substring0 text 2000 ++ "..." else text

/-- The message of the error raised for a non-2xx response
(client.ts lines 81-84). -/
def apiErrorMessage (status : Nat) (text : String) : String :=
  "Bitbucket API error " ++ toString status ++ ": " ++ truncateBody text

/-- Models `response.ok` of the Fetch API: status in the range 200-299. -/
def responseOk (status : Nat) : Bool :=
  decide (200 ≤ status ∧ status < 300)

/-- The possible outcomes of the `fetch` call awaited inside `request`:
a response (with status, content-type header and body text), an
`AbortError` `DOMException` (the timeout fired and aborted the request),
or any other lower-level network failure. -/
inductive FetchResult where
  | success (status : Nat) (contentType : String) (body : String)
  | abortError
  | networkError (msg : String)
deriving DecidableEq, Repr

/-- What `request` throws: either a `BitbucketApiError` constructed in the
`try` block, or one of the lower-level exceptions `fetch` produces. -/
inductive ThrownError where
  | api (e : BitbucketApiError)
  | abort
  | other (msg : String)
deriving DecidableEq, Repr

/-- The value `request` resolves with: decoded JSON (kept as its source
text — decoding itself is outside the verified core) or raw text. -/
inductive ResponseValue where
  | json (body : String)
  | text (body : String)
deriving DecidableEq, Repr

/-- Models `contentType.includes("application/json")`: substring test. -/
def strIncludes (s pat : String) : Bool :=
  decide (List.IsInfix pat.data s.data)

/-- Embeds the `try` block of `request` (client.ts lines 70-97): a non-ok
response raises a `BitbucketApiError` with the real status and the
truncated body; an ok response yields raw text when `rawResponse` is set,
decoded JSON when the content type includes `application/json`, and raw
text otherwise.  A timeout abort or network failure from `fetch` is the
corresponding lower-level exception. -/
def tryBlock (rawResponse : Bool) (fetch : FetchResult) :
    Except ThrownError ResponseValue :=
  match fetch with
  | .success status contentType body =>
    if responseOk status then
      if rawResponse then
        .ok (.text body)
      else if strIncludes contentType "application/json" then
        .ok (.json body)
      else
        .ok (.text body)
    else
      .error (.api ⟨status, apiErrorMessage status body⟩)
  | .abortError => .error .abort
  | .networkError msg => .error (.other msg)

/-- Embeds the `catch` block of `request` (client.ts lines 98-106): a
`BitbucketApiError` is rethrown unchanged; an `AbortError` becomes a
status-408 error; anything else becomes a status-0 network error. -/
def catchHandler : ThrownError → BitbucketApiError
  | .api e => e
  | .abort => ⟨408, "Request timed out"⟩
  | .other msg => ⟨0, "Network error: " ++ msg⟩

/-- Embeds `request` (client.ts lines 25-110) as a function of the fetch
outcome: the `try` block, with every thrown error routed through the
`catch` block. -/
def request (rawResponse : Bool) (fetch : FetchResult) :
    Except BitbucketApiError ResponseValue :=
  match tryBlock rawResponse fetch with
  | .ok v => .ok v
  | .error e => .error (catchHandler e)

/-- Embeds the `PaginatedResponse<T>` interface from
`src/bitbucket/types.ts`. -/
structure PaginatedResponse (T : Type) where
  values : List T
  next : Option String
  page : Nat
  size : Nat
  pagelen : Nat

/-- Embeds the loop of `paginateAll` (client.ts lines 147-168).  The
source counts fetched-and-continued pages upward (`page`, starting at 0)
against the bound `maxPages`; here the same loop is written counting the
remaining budget `maxPages - page` downward, which is the structural
recursion Lean needs.  `server` gives the envelope each successful GET
returns for a (path, params) pair; `currentPath` and `response.next` are
tested for JavaScript truthiness, so an empty string stops the loop just
as an absent value does.  When a page carries a truthy `next`, the loop
continues at that URL with no params (`next` already embeds them). -/
def paginateLoop {T : Type}
    (server : String → Option QueryParams → PaginatedResponse T) :
    String → Option QueryParams → List T → Nat → List T
  | _, _, acc, 0 => acc
  | currentPath, currentParams, acc, remaining + 1 =>
    if currentPath = "" then acc
    else
      let response := server currentPath currentParams
      let acc2 := acc ++ response.values
      match response.next with
      | some nxt =>
        if nxt = "" then acc2
        else paginateLoop server nxt none acc2 remaining
      | none => acc2

/-- Embeds `paginateAll` (client.ts lines 142-169): run the loop starting
from the given path and params with an empty accumulator and a budget of
`maxPages` pages (`maxPages` is an `Int` because the TypeScript parameter
is an arbitrary `number`; a non-positive bound admits zero iterations,
exactly as `page < maxPages` with `page = 0` does). -/
def paginateAll {T : Type}
    (server : String → Option QueryParams → PaginatedResponse T)
    (path : String) (params : Option QueryParams) (maxPages : Int) :
    List T :=
  paginateLoop server path params [] maxPages.toNat

/-- The sequence of envelopes the `paginateAll` loop fetches, in fetch
order: same control flow as `paginateLoop`, recording each response. -/
def fetchTrace {T : Type}
    (server : String → Option QueryParams → PaginatedResponse T) :
    String → Option QueryParams → Nat → List (PaginatedResponse T)
  | _, _, 0 => []
  | currentPath, currentParams, remaining + 1 =>
    if currentPath = "" then []
    else
      let response := server currentPath currentParams
      match response.next with
      | some nxt =>
        if nxt = "" then [response]
        else response :: fetchTrace server nxt none remaining
      | none => [response]

deriving instance DecidableEq for Except

/-- A baseline configuration with no restrictions, used to instantiate
universally quantified theorems at concrete inputs. -/
def cfgBase : Config :=
  { email := "e", apiToken := "t", defaultWorkspace := none,
    allowedWorkspaces := none, allowedRepos := none,
    readonly := false, baseUrl := "https://api.bitbucket.org/2.0" }

/-- A configuration restricting workspaces to `ws1`. -/
def cfgWs : Config :=
  { cfgBase with allowedWorkspaces := some ["ws1"] }

/-- A configuration restricting workspaces to `ws1` and repositories to
`ws1/repo`. -/
def cfgWsRepo : Config :=
  { cfgBase with allowedWorkspaces := some ["ws1"], allowedRepos := some ["ws1/repo"] }

/-- A configuration with default workspace `d`. -/
def cfgD : Config :=
  { cfgBase with defaultWorkspace := some "d" }

/-- A server whose every page carries one item and links to a next page:
the infinite-loop endpoint of the spec's pagination property. -/
def srvLoop : String → Option QueryParams → PaginatedResponse Nat :=
  fun _ _ => { values := [37], next := some "n", page := 1, size := 1, pagelen := 1 }

/-- A server returning a single page with one item and no next link. -/
def srvOne : String → Option QueryParams → PaginatedResponse Nat :=
  fun _ _ => { values := [1], next := none, page := 1, size := 1, pagelen := 1 }

/-- A 3000-character response body. -/
def bigBody : String :=
  String.mk (List.replicate 3000 'x')

theorem strLength_append (a b : String) : (a ++ b).length = a.length + b.length := by
  cases a with
  | mk la =>
    cases b with
    | mk lb =>
      show (String.mk (la ++ lb)).length = (String.mk la).length + (String.mk lb).length
      simp

theorem substring0_length (s : String) (n : Nat) :
    (substring0 s n).length = min n s.length := by
  cases s with
  | mk l => simp [substring0, String.length]

/-- Claim C5: when the allowed-workspace set is absent, the workspace
check accepts every input; when present, it accepts exactly the inputs
whose lower-casing is a member of the set. -/
theorem assertWorkspaceAllowed_spec (config : Config) (workspace : String) :
    (config.allowedWorkspaces = none →
        assertWorkspaceAllowed config workspace = .ok ())
    ∧ (∀ allowed, config.allowedWorkspaces = some allowed →
        (assertWorkspaceAllowed config workspace = .ok ()
          ↔ allowed.contains (strToLower workspace) = true)) := by
  constructor
  · intro h
    simp [assertWorkspaceAllowed, h]
  · intro allowed h
    by_cases hc : allowed.contains (strToLower workspace) = true
    · simp [assertWorkspaceAllowed, h, hc]
    · simp [assertWorkspaceAllowed, h, hc]

/-- Claim C5 witness: with allowed workspaces `{ws1}`, input `WS1`
passes (case-insensitive) and input `ws2` fails. -/
theorem assertWorkspaceAllowed_spec_witness :
    assertWorkspaceAllowed cfgWs "WS1" = .ok ()
    ∧ assertWorkspaceAllowed cfgWs "ws2" ≠ .ok () := by
  constructor
  · exact ((assertWorkspaceAllowed_spec cfgWs "WS1").2 ["ws1"] rfl).mpr (by decide)
  · intro h
    exact absurd (((assertWorkspaceAllowed_spec cfgWs "ws2").2 ["ws1"] rfl).mp h) (by decide)

/-- Claim C1: the repository check performs the workspace check first —
a present allowed-workspace set missing the lower-cased workspace makes
it fail regardless of the allowed-repository set, and any workspace-check
failure propagates verbatim; only once the workspace check passes does
the allowed-repository set matter: absent means accept, present means
accept exactly when the lower-cased `workspace/slug` composite or the
lower-cased bare slug is a member. -/
theorem assertRepoAllowed_spec (config : Config) (workspace repoSlug : String) :
    (∀ allowedW, config.allowedWorkspaces = some allowedW →
        allowedW.contains (strToLower workspace) = false →
        ∃ e, assertRepoAllowed config workspace repoSlug = .error e)
    ∧ (∀ e, assertWorkspaceAllowed config workspace = .error e →
        assertRepoAllowed config workspace repoSlug = .error e)
    ∧ (assertWorkspaceAllowed config workspace = .ok () →
        config.allowedRepos = none →
        assertRepoAllowed config workspace repoSlug = .ok ())
    ∧ (∀ allowedR, assertWorkspaceAllowed config workspace = .ok () →
        config.allowedRepos = some allowedR →
        (assertRepoAllowed config workspace repoSlug = .ok ()
          ↔ (allowedR.contains (strToLower (workspace ++ "/" ++ repoSlug)) = true
             ∨ allowedR.contains (strToLower repoSlug) = true))) := by
  refine ⟨?_, ?_, ?_, ?_⟩
  · intro allowedW hW hc
    refine ⟨⟨"Workspace \"" ++ workspace ++ "\" is not in the allowed list. Allowed: " ++ String.intercalate ", " allowedW⟩, ?_⟩
    have hc2 : strToLower workspace ∉ allowedW := by simpa using hc
    have hws : assertWorkspaceAllowed config workspace
        = .error ⟨"Workspace \"" ++ workspace ++ "\" is not in the allowed list. Allowed: " ++ String.intercalate ", " allowedW⟩ := by
      simp [assertWorkspaceAllowed, hW, hc2]
    simp [assertRepoAllowed, hws]
  · intro e he
    simp [assertRepoAllowed, he]
  · intro hok hnone
    simp [assertRepoAllowed, hok, hnone]
  · intro allowedR hok hR
    cases hb : (allowedR.contains (strToLower (workspace ++ "/" ++ repoSlug))
        || allowedR.contains (strToLower repoSlug)) with
    | false =>
      have hmem : strToLower (workspace ++ "/" ++ repoSlug) ∉ allowedR
          ∧ strToLower repoSlug ∉ allowedR := by simpa using hb
      simp [assertRepoAllowed, hok, hR, hb, hmem.1, hmem.2]
    | true =>
      have hmem : strToLower (workspace ++ "/" ++ repoSlug) ∈ allowedR
          ∨ strToLower repoSlug ∈ allowedR := by simpa using hb
      simp [assertRepoAllowed, hok, hR, hb, hmem]

/-- Claim C1 witness: with `allowedRepos = {ws1/repo}` and
`allowedWorkspaces = {ws1}`, checking repo `repo` under workspace `ws2`
fails with the workspace-check error. -/
theorem assertRepoAllowed_spec_witness :
    assertRepoAllowed cfgWsRepo "ws2" "repo"
      = .error ⟨"Workspace \"ws2\" is not in the allowed list. Allowed: ws1"⟩ :=
  (assertRepoAllowed_spec cfgWsRepo "ws2" "repo").2.1
    ⟨"Workspace \"ws2\" is not in the allowed list. Allowed: ws1"⟩ (by decide)

/-- Claim C8: the confirmation check passes exactly when the flag is the
value `true`; when it is `false` or absent, it fails with a message that
contains the action label. -/
theorem assertConfirmed_spec (confirm : Option Bool) (action : String) :
    (assertConfirmed confirm action = .ok () ↔ confirm = some true)
    ∧ (confirm ≠ some true →
        ∃ e pre post, assertConfirmed confirm action = .error e
          ∧ e.message = pre ++ action ++ post) := by
  constructor
  · by_cases h : confirm = some true <;> simp [assertConfirmed, h]
  · intro h
    refine ⟨⟨"Destructive action \"" ++ action ++ "\" requires explicit confirmation. Set confirm=true to proceed."⟩,
      "Destructive action \"",
      "\" requires explicit confirmation. Set confirm=true to proceed.", ?_, rfl⟩
    simp [assertConfirmed, h]

/-- Claim C8 witness: a `false` flag fails and the error message carries
the action label. -/
theorem assertConfirmed_spec_witness :
    ∃ e pre post, assertConfirmed (some false) "merge pull request" = .error e
      ∧ e.message = pre ++ "merge pull request" ++ post :=
  (assertConfirmed_spec (some false) "merge pull request").2 (by decide)

/-- Claim C6 counterexample: with default workspace `d`, passing the
explicit workspace `""` does not return `""` — JavaScript truthiness
treats the empty string as absent and the default is returned instead. -/
theorem resolveWorkspace_explicit_empty_counterexample :
    resolveWorkspace cfgD (some "") = .ok "d"
    ∧ (Except.ok "d" : Except SafetyError String) ≠ .ok "" := by
  exact ⟨by decide, by decide⟩

/-- Claim C6 (amended): `resolveWorkspace` returns the explicit workspace
argument whenever a non-empty one is provided, regardless of the
configured default; when the explicit argument is absent (or empty, which
truthiness treats as absent) it returns the configured non-empty default
workspace if set, and raises a Safety Violation when no default is set. -/
theorem resolveWorkspace_spec (config : Config) (workspace : Option String) :
    (∀ s, workspace = some s → s ≠ "" → resolveWorkspace config workspace = .ok s)
    ∧ ((workspace = none ∨ workspace = some "") →
        (∀ d, config.defaultWorkspace = some d → d ≠ "" →
            resolveWorkspace config workspace = .ok d)
        ∧ (config.defaultWorkspace = none →
            ∃ e, resolveWorkspace config workspace = .error e)) := by
  constructor
  · intro s hs hne
    subst hs
    simp [resolveWorkspace, hne]
  · intro hw
    have hempty : workspace.getD "" = "" := by
      rcases hw with h | h <;> simp [h]
    constructor
    · intro d hd hdne
      simp [resolveWorkspace, hempty, hd, hdne]
    · intro hd
      exact ⟨⟨"No workspace specified and BITBUCKET_DEFAULT_WORKSPACE is not set. Provide a workspace parameter."⟩,
        by simp [resolveWorkspace, hempty, hd]⟩

/-- Claim C6 witness: an explicit non-empty workspace is returned even
when a default is configured; with no explicit workspace and no default,
the resolution fails. -/
theorem resolveWorkspace_spec_witness :
    resolveWorkspace cfgD (some "x") = .ok "x"
    ∧ ∃ e, resolveWorkspace cfgBase none = .error e :=
  ⟨(resolveWorkspace_spec cfgD (some "x")).1 "x" rfl (by decide),
   ((resolveWorkspace_spec cfgBase none).2 (Or.inl rfl)).2 rfl⟩

/-- Claim C9: passing the empty string as the explicit workspace behaves
exactly like passing no workspace: the result is never `ok ""`; the
configured (non-empty) default is returned when set, and a Safety
Violation is raised when no default is set. -/
theorem resolveWorkspace_empty_explicit (config : Config) :
    resolveWorkspace config (some "") = resolveWorkspace config none
    ∧ resolveWorkspace config (some "") ≠ .ok ""
    ∧ (∀ d, config.defaultWorkspace = some d → d ≠ "" →
        resolveWorkspace config (some "") = .ok d)
    ∧ (config.defaultWorkspace = none →
        ∃ e, resolveWorkspace config (some "") = .error e) := by
  refine ⟨rfl, ?_, ?_, ?_⟩
  · rcases hd : config.defaultWorkspace with _ | d
    · simp [resolveWorkspace, hd]
    · by_cases hdne : d = ""
      · subst hdne
        simp [resolveWorkspace, hd]
      · simp [resolveWorkspace, hd, hdne]
  · intro d hd hdne
    simp [resolveWorkspace, hd, hdne]
  · intro hd
    exact ⟨⟨"No workspace specified and BITBUCKET_DEFAULT_WORKSPACE is not set. Provide a workspace parameter."⟩,
      by simp [resolveWorkspace, hd]⟩

/-- Claim C9 witness: with default `d`, the empty explicit workspace
resolves to `d`. -/
theorem resolveWorkspace_empty_explicit_witness :
    resolveWorkspace cfgD (some "") = .ok "d" :=
  (resolveWorkspace_empty_explicit cfgD).2.2.1 "d" rfl (by decide)

/-- Claim C3: every failure of the core request surfaces as exactly one
API Error — status 408 when the client-side timeout aborted the request,
status 0 for a lower-level network failure, and the remote server's HTTP
status verbatim for every non-2xx response; an API Error thrown inside
the try block passes through the catch block unchanged, and every 2xx
response succeeds without an error. -/
theorem request_error_taxonomy (raw : Bool) (status : Nat) (ct body msg : String)
    (e : BitbucketApiError) :
    request raw .abortError = .error ⟨408, "Request timed out"⟩
    ∧ request raw (.networkError msg) = .error ⟨0, "Network error: " ++ msg⟩
    ∧ (responseOk status = false →
        request raw (.success status ct body)
          = .error ⟨status, apiErrorMessage status body⟩)
    ∧ (responseOk status = true →
        ∃ v, request raw (.success status ct body) = .ok v)
    ∧ catchHandler (.api e) = e := by
  refine ⟨rfl, rfl, ?_, ?_, rfl⟩
  · intro h
    simp [request, tryBlock, h, catchHandler]
  · intro h
    simp only [request, tryBlock, h, if_true]
    cases raw with
    | true => exact ⟨.text body, rfl⟩
    | false =>
      cases hct : strIncludes ct "application/json" with
      | true => exact ⟨.json body, by simp [hct]⟩
      | false => exact ⟨.text body, by simp [hct]⟩

/-- Claim C3 witness: a 404 response raises an API Error with status
code 404 whose message contains `404`. -/
theorem request_error_taxonomy_witness :
    request false (.success 404 "" "nope")
      = .error ⟨404, "Bitbucket API error 404: nope"⟩ := by
  have h := (request_error_taxonomy false 404 "" "nope" "m" ⟨7, "w"⟩).2.2.1 (by decide)
  exact h.trans (by decide)

/-- Claim C4 counterexample: the message of the error raised for a 404
response with body `x` is `"Bitbucket API error 404: x"`, which is not of
the claimed form `"API error {status}: {body}"` (the code prefixes the
product name). -/
theorem request_message_counterexample :
    request false (.success 404 "" "x") = .error ⟨404, "Bitbucket API error 404: x"⟩
    ∧ "Bitbucket API error 404: x" ≠ "API error 404: x" :=
  ⟨by decide, by decide⟩

/-- Claim C4 (amended): for every non-2xx response with body text B, the
raised API Error's message has the form
`"Bitbucket API error {status}: {body}"` where `{body}` is B when B has
at most 2000 characters and otherwise the first 2000 characters of B
followed by the truncation marker `"..."`; consequently for a
3000-character body the full message (status 404) is 2028 characters,
below 2100. -/
theorem request_message_form (status : Nat) (ct B : String)
    (h : responseOk status = false) :
    request false (.success status ct B)
      = .error ⟨status, "Bitbucket API error " ++ toString status ++ ": "
          ++ (if B.length > 2000 then substring0 B 2000 ++ "..." else B)⟩
    ∧ (B.length > 2000 →
        (apiErrorMessage status B).length = (toString status).length + 2025)
    ∧ (B.length = 3000 → (apiErrorMessage 404 B).length = 2028 ∧ 2028 < 2100) := by
  refine ⟨?_, ?_, ?_⟩
  · simp [request, tryBlock, h, catchHandler, apiErrorMessage, truncateBody]
  · intro hlen
    simp only [apiErrorMessage, truncateBody, hlen, if_pos, strLength_append,
      substring0_length]
    have : min 2000 B.length = 2000 := Nat.min_eq_left (Nat.le_of_lt hlen)
    rw [this]
    have h20 : ("Bitbucket API error " : String).length = 20 := by decide
    have h2 : (": " : String).length = 2 := by decide
    have h3 : ("..." : String).length = 3 := by decide
    omega
  · intro hlen
    refine ⟨?_, by omega⟩
    have hgt : B.length > 2000 := by omega
    simp only [apiErrorMessage, truncateBody, hgt, if_pos, strLength_append,
      substring0_length]
    have : min 2000 B.length = 2000 := Nat.min_eq_left (by omega)
    rw [this]
    have h20 : ("Bitbucket API error " : String).length = 20 := by decide
    have h2 : (": " : String).length = 2 := by decide
    have h3 : ("..." : String).length = 3 := by decide
    have h404 : (toString (404 : Nat)).length = 3 := by decide
    omega

/-- Claim C4 witness: a 3000-character body yields a 2028-character
message. -/
theorem request_message_form_witness :
    (apiErrorMessage 404 bigBody).length = 2028 ∧ 2028 < 2100 :=
  (request_message_form 404 "" bigBody (by decide)).2.2
    (by rw [show bigBody.length = (List.replicate 3000 'x').length from rfl,
          List.length_replicate])

theorem head?_dropWhile_not {α : Type} (p : α → Bool) :
    ∀ (l : List α) (a : α), (l.dropWhile p).head? = some a → p a = false := by
  intro l
  induction l with
  | nil => intro a h; simp [List.dropWhile] at h
  | cons x xs ih =>
    intro a h
    by_cases hx : p x = true
    · rw [List.dropWhile_cons_of_pos hx] at h
      exact ih a h
    · rw [List.dropWhile_cons_of_neg hx] at h
      simp at h
      subst h
      simpa using hx

/-- Claim C7 counterexample: the path `httpz` starts with `http` but is
not an absolute URL in the code's sense (`http://` or `https://`), so it
is joined to the base URL rather than used verbatim. -/
theorem buildUrl_http_counterexample :
    strStartsWith "httpz" "http" = true
    ∧ buildUrl (stripTrailingSlashes "https://h/") "httpz" ≠ "httpz" :=
  ⟨by decide, by decide⟩

/-- Claim C7 (amended): a path starting with `http://` or `https://` is
used verbatim as the request URL, bypassing the configured base URL
entirely; any other path is joined to the base URL with trailing slashes
stripped (the stored base URL never ends in `/`), with a `/` inserted
when the path does not begin with one. -/
theorem buildUrl_spec (config : Config) (path : String) :
    (strStartsWith path "http://" = true ∨ strStartsWith path "https://" = true →
        buildUrl (mkClientBaseUrl config) path = path)
    ∧ (strStartsWith path "http://" = false → strStartsWith path "https://" = false →
        buildUrl (mkClientBaseUrl config) path
          = mkClientBaseUrl config
            ++ (if strStartsWith path "/" = true then "" else "/") ++ path)
    ∧ (mkClientBaseUrl config).data.getLast? ≠ some '/' := by
  refine ⟨?_, ?_, ?_⟩
  · intro h
    rcases h with h | h <;> simp [buildUrl, h]
  · intro h1 h2
    simp [buildUrl, h1, h2]
  · intro hlast
    have hrev : (mkClientBaseUrl config).data
        = (config.baseUrl.data.reverse.dropWhile (fun c => c = '/')).reverse := rfl
    rw [hrev, List.getLast?_reverse] at hlast
    have := head?_dropWhile_not (fun c => c = '/')
        (config.baseUrl.data.reverse) '/' hlast
    simp at this

/-- Claim C7 witness: a relative path is joined to the slash-stripped
base URL, and an absolute URL is passed through verbatim. -/
theorem buildUrl_spec_witness :
    buildUrl (mkClientBaseUrl cfgBase) "repositories"
      = "https://api.bitbucket.org/2.0/repositories"
    ∧ buildUrl (mkClientBaseUrl cfgBase) "https://next.example/page?p=2"
      = "https://next.example/page?p=2" := by
  constructor
  · have h := (buildUrl_spec cfgBase "repositories").2.1 (by decide) (by decide)
    exact h.trans (by decide)
  · exact (buildUrl_spec cfgBase "https://next.example/page?p=2").1 (Or.inr (by decide))

theorem paginateLoop_append {T : Type}
    (server : String → Option QueryParams → PaginatedResponse T) :
    ∀ (n : Nat) (p : String) (q : Option QueryParams) (acc : List T),
      paginateLoop server p q acc n = acc ++ paginateLoop server p q [] n := by
  intro n
  induction n with
  | zero =>
    intro p q acc
    simp [paginateLoop]
  | succ m ih =>
    intro p q acc
    by_cases hp : p = ""
    · simp [paginateLoop, hp]
    · rcases hn : (server p q).next with _ | nxt
      · simp [paginateLoop, hp, hn]
      · by_cases hne : nxt = ""
        · simp [paginateLoop, hp, hn, hne]
        · simp only [paginateLoop, hp, hn, hne, if_neg, ite_false]
          rw [ih nxt none (acc ++ (server p q).values),
            ih nxt none (([] : List T) ++ (server p q).values)]
          simp

theorem paginateLoop_eq_flatten {T : Type}
    (server : String → Option QueryParams → PaginatedResponse T) :
    ∀ (n : Nat) (p : String) (q : Option QueryParams),
      paginateLoop server p q [] n
        = ((fetchTrace server p q n).map PaginatedResponse.values).flatten := by
  intro n
  induction n with
  | zero =>
    intro p q
    simp [paginateLoop, fetchTrace]
  | succ m ih =>
    intro p q
    by_cases hp : p = ""
    · simp [paginateLoop, fetchTrace, hp]
    · rcases hn : (server p q).next with _ | nxt
      · simp [paginateLoop, fetchTrace, hp, hn]
      · by_cases hne : nxt = ""
        · simp [paginateLoop, fetchTrace, hp, hn, hne]
        · simp only [paginateLoop, fetchTrace, hp, hn, hne, if_neg, ite_false]
          rw [paginateLoop_append server m nxt none (([] : List T) ++ (server p q).values),
            ih nxt none]
          simp

theorem fetchTrace_length_le {T : Type}
    (server : String → Option QueryParams → PaginatedResponse T) :
    ∀ (n : Nat) (p : String) (q : Option QueryParams),
      (fetchTrace server p q n).length ≤ n := by
  intro n
  induction n with
  | zero =>
    intro p q
    simp [fetchTrace]
  | succ m ih =>
    intro p q
    by_cases hp : p = ""
    · simp [fetchTrace, hp]
    · rcases hn : (server p q).next with _ | nxt
      · simp [fetchTrace, hp, hn]
      · by_cases hne : nxt = ""
        · simp [fetchTrace, hp, hn, hne]
        · simp only [fetchTrace, hp, hn, hne, if_neg, ite_false, List.length_cons]
          have := ih nxt none
          omega

theorem fetchTrace_next_truthy {T : Type}
    (server : String → Option QueryParams → PaginatedResponse T) :
    ∀ (n : Nat) (p : String) (q : Option QueryParams) (i : Nat)
      (page : PaginatedResponse T),
      (fetchTrace server p q n)[i]? = some page →
      i + 1 < (fetchTrace server p q n).length →
      ∃ nxt, page.next = some nxt ∧ nxt ≠ "" := by
  intro n
  induction n with
  | zero =>
    intro p q i page h hlt
    simp [fetchTrace] at h
  | succ m ih =>
    intro p q i page h hlt
    by_cases hp : p = ""
    · simp [fetchTrace, hp] at h
    · rcases hn : (server p q).next with _ | nxt
      · rw [show fetchTrace server p q (m + 1) = [server p q] by
            simp [fetchTrace, hp, hn]] at h hlt
        simp at hlt
      · by_cases hne : nxt = ""
        · rw [show fetchTrace server p q (m + 1) = [server p q] by
              simp [fetchTrace, hp, hn, hne]] at h hlt
          simp at hlt
        · rw [show fetchTrace server p q (m + 1)
              = server p q :: fetchTrace server nxt none m by
              simp [fetchTrace, hp, hn, hne]] at h hlt
          cases i with
          | zero =>
            simp at h
            subst h
            exact ⟨nxt, hn, hne⟩
          | succ j =>
            simp only [List.getElem?_cons_succ] at h
            simp only [List.length_cons] at hlt
            exact ih nxt none j page h (by omega)

theorem fetchTrace_length_of_always_next {T : Type}
    (server : String → Option QueryParams → PaginatedResponse T)
    (hsrv : ∀ p q, ∃ nxt, (server p q).next = some nxt ∧ nxt ≠ "") :
    ∀ (n : Nat) (p : String) (q : Option QueryParams), p ≠ "" →
      (fetchTrace server p q n).length = n := by
  intro n
  induction n with
  | zero =>
    intro p q hp
    simp [fetchTrace]
  | succ m ih =>
    intro p q hp
    obtain ⟨nxt, hn, hne⟩ := hsrv p q
    simp [fetchTrace, hp, hn, hne, ih nxt none hne]

theorem fetchTrace_mem {T : Type}
    (server : String → Option QueryParams → PaginatedResponse T) :
    ∀ (n : Nat) (p : String) (q : Option QueryParams) (x : PaginatedResponse T),
      x ∈ fetchTrace server p q n → ∃ p2 q2, x = server p2 q2 := by
  intro n
  induction n with
  | zero =>
    intro p q x h
    simp [fetchTrace] at h
  | succ m ih =>
    intro p q x h
    by_cases hp : p = ""
    · simp [fetchTrace, hp] at h
    · rcases hn : (server p q).next with _ | nxt
      · simp [fetchTrace, hp, hn] at h
        exact ⟨p, q, h⟩
      · by_cases hne : nxt = ""
        · simp [fetchTrace, hp, hn, hne] at h
          exact ⟨p, q, h⟩
        · rw [show fetchTrace server p q (m + 1)
              = server p q :: fetchTrace server nxt none m by
              simp [fetchTrace, hp, hn, hne]] at h
          rcases List.mem_cons.mp h with h | h
          · exact ⟨p, q, h⟩
          · exact ih nxt none x h

theorem flatten_map_values_length {T : Type} :
    ∀ (l : List (PaginatedResponse T)),
      (∀ x ∈ l, x.values.length = 1) →
      ((l.map PaginatedResponse.values).flatten).length = l.length := by
  intro l
  induction l with
  | nil =>
    intro h
    simp
  | cons x xs ih =>
    intro h
    simp only [List.map_cons, List.flatten_cons, List.length_append, List.length_cons]
    rw [h x (by simp), ih (fun y hy => h y (by simp [hy]))]
    omega

/-- Claim C2: the pagination aggregator returns exactly the concatenation
of each fetched page's item list in fetch order (no deduplication); it
fetches at most `maxPages` pages and only continues past a page when that
page carries a truthy next-page URL; and against a server whose every
page carries one item and a next link, it returns exactly `maxPages`
items (so 3 items when `maxPages = 3`). -/
theorem paginateAll_spec {T : Type}
    (server : String → Option QueryParams → PaginatedResponse T)
    (path : String) (params : Option QueryParams) (maxPages : Int) :
    paginateAll server path params maxPages
      = ((fetchTrace server path params maxPages.toNat).map
          PaginatedResponse.values).flatten
    ∧ (fetchTrace server path params maxPages.toNat).length ≤ maxPages.toNat
    ∧ (∀ i page, (fetchTrace server path params maxPages.toNat)[i]? = some page →
        i + 1 < (fetchTrace server path params maxPages.toNat).length →
        ∃ nxt, page.next = some nxt ∧ nxt ≠ "")
    ∧ ((∀ p q, (server p q).values.length = 1
          ∧ ∃ nxt, (server p q).next = some nxt ∧ nxt ≠ "") →
        path ≠ "" →
        (paginateAll server path params maxPages).length = maxPages.toNat) := by
  refine ⟨?_, ?_, ?_, ?_⟩
  · exact paginateLoop_eq_flatten server maxPages.toNat path params
  · exact fetchTrace_length_le server maxPages.toNat path params
  · intro i page h hlt
    exact fetchTrace_next_truthy server maxPages.toNat path params i page h hlt
  · intro hsrv hpath
    show (paginateLoop server path params [] maxPages.toNat).length = maxPages.toNat
    rw [paginateLoop_eq_flatten server maxPages.toNat path params,
      flatten_map_values_length _ (fun x hx => by
        obtain ⟨p2, q2, hx2⟩ := fetchTrace_mem server maxPages.toNat path params x hx
        rw [hx2]
        exact (hsrv p2 q2).1),
      fetchTrace_length_of_always_next server (fun p q => (hsrv p q).2)
        maxPages.toNat path params hpath]

/-- Claim C2 witness: with `maxPages = 3` against a server whose every
page contains one item and links to a next page, exactly 3 items are
returned. -/
theorem paginateAll_spec_witness :
    (paginateAll srvLoop "p" none 3).length = (3 : Int).toNat ∧ (3 : Int).toNat = 3 :=
  ⟨(paginateAll_spec srvLoop "p" none 3).2.2.2
      (fun _ _ => ⟨rfl, "n", rfl, by decide⟩) (by decide),
   rfl⟩

/-- Claim C10: with a non-positive `maxPages` bound, the pagination
aggregator returns the empty list and fetches no page at all. -/
theorem paginateAll_nonpositive {T : Type}
    (server : String → Option QueryParams → PaginatedResponse T)
    (path : String) (params : Option QueryParams) (maxPages : Int)
    (h : maxPages ≤ 0) :
    paginateAll server path params maxPages = []
    ∧ fetchTrace server path params maxPages.toNat = [] := by
  have h0 : maxPages.toNat = 0 := Int.toNat_of_nonpos h
  constructor
  · show paginateLoop server path params [] maxPages.toNat = []
    rw [h0]
    rfl
  · rw [h0]
    rfl

/-- Claim C10 witness: `maxPages = 0` yields no items and no fetches. -/
theorem paginateAll_nonpositive_witness :
    paginateAll srvOne "p" none 0 = []
    ∧ fetchTrace srvOne "p" none ((0 : Int).toNat) = [] :=
  paginateAll_nonpositive srvOne "p" none 0 (by decide)
